import Mathlib

/-!
Verification of the sliding-puzzle engine in src/index.js.

The game keeps a global `grid : Array<Array<Tile | null>>` of Phaser image
objects; each tile object carries its texture frame id (`frame.name`) and the
`row`/`col` fields the game attaches to it.  We embed the grid as a list of
rows of `Option Tile`, with `none` standing for both `null` and JavaScript
`undefined` (out-of-bounds reads), since the game only ever tests cells for
truthiness.

The Phaser array utilities called by `shuffleGrid` are embedded after the
Phaser 3 API: `NumberArray(0, k)` is the inclusive range, `Remove(arr, item)`
removes the element equal to `item`, and `Swap(arr, item1, item2)` looks up
the positions of the two *items* with `indexOf` and exchanges them, throwing
when either item is absent (modelled as `none`).  The Fisher-Yates `Shuffle`
is externalized: functions that consume its output take the post-shuffle
permutation as an argument, quantified over all permutations of the
pre-shuffle list.
-/

/-- A puzzle tile as built in `create`: an image game object carrying its
texture frame id (`frame.name`) together with the `row` and `col` fields the
game assigns to it. -/
structure Tile where
  frame : Nat
  row : Nat
  col : Nat
deriving DecidableEq

/-- The global `grid` variable: a list of rows, each cell a tile or `null`. -/
abbrev GameGrid := List (List (Option Tile))

/-- Indexing into a list, `none` past the end (JavaScript `undefined`). -/
def nth {α : Type _} : List α → Nat → Option α
  | [], _ => none
  | a :: _, 0 => some a
  | _ :: t, n + 1 => nth t n

/-- The read `grid[r]`, with an out-of-bounds row read giving the empty row. -/
def rowAt (g : GameGrid) (r : Nat) : List (Option Tile) := (nth g r).getD []

/-- The read `grid[r][c]`; both `null` and an out-of-bounds `undefined` are `none`,
matching the game's falsiness tests on cells. -/
def getCell (g : GameGrid) (r c : Nat) : Option Tile := ((nth (rowAt g r) c)).getD none

/-- The write `grid[r][c] = v` (used by `slideTile` only at in-bounds indices). -/
def setCell (g : GameGrid) (r c : Nat) (v : Option Tile) : GameGrid :=
  g.set r ((rowAt g r).set c v)

/-- The global `gridSize` guard at the top of src/index.js:
`if (!gridSize || gridSize < 3) { gridSize = 4; }`.  The input is the value
injected from the HTML page (`none` when the global is unset, in which case
`!gridSize` is true; `!gridSize` is also true for the value 0). -/
def normalizeGridSize (injected : Option Int) : Int :=
  match injected with
  | none => 4
  | some v => if v = 0 ∨ v < 3 then 4 else v

/-- The function `slideTile(tile, newRow, newCol)` from src/index.js, grid/tile part: the
cell at the target becomes (a reference to) the tile, whose `row`/`col`
fields are then updated, and the origin cell becomes `null`.  The origin
coordinates are read from the tile before the update, exactly as in the
source.  Returns the updated grid and the updated tile object. -/
def slideTile (g : GameGrid) (tile : Tile) (newRow newCol : Nat) : GameGrid × Tile :=
  let moved : Tile := ⟨tile.frame, newRow, newCol⟩
  let g1 := setCell g newRow newCol (some moved)
  let g2 := setCell g1 tile.row tile.col none
  (g2, moved)

/-- The handler `tileClicked(pointer, tile)` from src/index.js: try the four orthogonal
neighbours in the order above / below / left / right; slide into the first
one that is blank, otherwise do nothing.  `N` is the global `gridSize`. -/
def tileClicked (N : Nat) (g : GameGrid) (tile : Tile) : GameGrid × Tile :=
  if 0 < tile.row ∧ getCell g (tile.row - 1) tile.col = none then
    slideTile g tile (tile.row - 1) tile.col
  else if tile.row < N - 1 ∧ getCell g (tile.row + 1) tile.col = none then
    slideTile g tile (tile.row + 1) tile.col
  else if 0 < tile.col ∧ getCell g tile.row (tile.col - 1) = none then
    slideTile g tile tile.row (tile.col - 1)
  else if tile.col < N - 1 ∧ getCell g tile.row (tile.col + 1) = none then
    slideTile g tile tile.row (tile.col + 1)
  else (g, tile)

/-- One cell's test inside `checkWin`: the cell passes when it is empty or
its tile displays the expected frame `gridSize * i + j`. -/
def cellMatches (N : Nat) (g : GameGrid) (i j : Nat) : Bool :=
  match getCell g i j with
  | none => true
  | some t => decide (t.frame = N * i + j)

/-- The inner `j` loop of `checkWin` on row `i`: the loop runs to completion
(no `return`) exactly when every cell of the row passes. -/
def rowMatches (N : Nat) (g : GameGrid) (i : Nat) : Bool :=
  (List.range N).all (fun j => cellMatches N g i j)

/-- The outer `i` loop of `checkWin` over the remaining row indices.
`signaled` records whether the win block (input off, bgm stop, noot) has
already run.  A failing cell executes `return`, ending the function with the
current `signaled`; a fully matching row falls through to the win block -
which in the source sits *inside* the outer loop - and continues. -/
def checkWinFrom (N : Nat) (g : GameGrid) : List Nat → Bool → Bool
  | [], signaled => signaled
  | i :: rest, signaled =>
    if rowMatches N g i then checkWinFrom N g rest true else signaled

/-- Whether a call to `checkWin()` signals a win (stops input, stops the
background music and plays the victory cue at least once). -/
def checkWinSignals (N : Nat) (g : GameGrid) : Bool := checkWinFrom N g (List.range N) false

/-- Modelled from the spec: `isSolved()` as the spec states it - every cell
of the whole grid is either blank or displays its home frame `row*N+col`.
Used as the reference predicate the claims compare `checkWin` against. -/
def isSolvedSpec (N : Nat) (g : GameGrid) : Bool :=
  (List.range N).all (fun i => rowMatches N g i)

/-- The synchronous effects performed by one `slideTile` call, in source
order, together with the callback payload of the tween: `tweens.add` with a
600ms duration and `checkWin` as its `onComplete`, then the logical grid
swap, then the slide sound. -/
inductive SlideAction where
  | addTween (duration : Nat) (onComplete : SlideAction)
  | winCheck
  | gridSwap
  | playSound
deriving DecidableEq

/-- The ordered list of calls `slideTile` itself performs.  The win check
appears only as the tween's `onComplete` payload, never as a synchronous
step. -/
def slideTileTrace : List SlideAction :=
  [SlideAction.addTween 600 SlideAction.winCheck, SlideAction.gridSwap, SlideAction.playSound]

/-- First index of `a` in the list (`Array.prototype.indexOf`), returning the
length when `a` is absent (the caller checks membership separately). -/
def indexOfN (a : Nat) : List Nat → Nat
  | [] => 0
  | b :: t => if b = a then 0 else indexOfN a t + 1

/-- The utility `Phaser.Utils.Array.Swap(array, item1, item2)`: looks up both *items*
with `indexOf`, throws (here: `none`) when either is absent, otherwise
writes `item2` at the index of `item1` and `item1` at the index of
`item2`. -/
def phaserSwap (l : List Nat) (a b : Nat) : Option (List Nat) :=
  if a = b then some l
  else if a ∈ l ∧ b ∈ l then
    some ((l.set (indexOfN a l) b).set (indexOfN b l) a)
  else none

/-- The pre-shuffle tile list of `shuffleGrid`:
`NumberArray(0, gridSize*gridSize - 1)` followed by
`Remove(tileNumbers, gridSize - 1)` (the blank's frame). -/
def tileList (N : Nat) : List Nat := (List.range (N * N)).erase (N - 1)

/-- The double loop of `shuffleGrid` counting pairs `i < j` with
`tileNumbers[i] > tileNumbers[j]`. -/
def inversions : List Nat → Nat
  | [] => 0
  | x :: xs => xs.countP (fun y => decide (y < x)) + inversions xs

/-- The test `let solvable = gridSize % 2 ^ inversions % 2` - bitwise xor of the two
parity bits, truthy exactly when it is nonzero. -/
def solvableB (N : Nat) (l : List Nat) : Bool :=
  decide ((N % 2) ^^^ (inversions l % 2) ≠ 0)

/-- The tail of `shuffleGrid` after the Fisher-Yates shuffle: `shuffled` is
the post-shuffle permutation (of `tileList N`); if it is not solvable the
values 0 and 1 are swapped via `Phaser.Utils.Array.Swap`, which throws
(`none`) when one of them is not in the array. -/
def shuffleGrid (N : Nat) (shuffled : List Nat) : Option (List Nat) :=
  if solvableB N shuffled then some shuffled else phaserSwap shuffled 0 1

/-- The value permutation performed by `Swap(tileNumbers, 0, 1)` on a
duplicate-free array containing both items: 0 and 1 exchange places and
every other value stays where it is. -/
def swap01 (v : Nat) : Nat := if v = 0 then 1 else if v = 1 then 0 else v

/-- The tile-placement loop of `create()` on one row `i`, over the remaining
column indices `js`: a cell is left blank (`null`) unless `i > 0 || j <
gridSize - 1`; each non-blank cell consumes `tileFrames.pop()` - the *last*
element of the frame list - and stores a tile with that frame and with
`row`/`col` set to the cell's indices.  Returns the built row and the
remaining frame list. -/
def buildRowAux (N i : Nat) : List Nat → List Nat → List (Option Tile) × List Nat
  | [], fs => ([], fs)
  | j :: rest, fs =>
    if 0 < i ∨ j < N - 1 then
      let out := buildRowAux N i rest fs.dropLast
      (some ⟨fs.getLastD 0, i, j⟩ :: out.1, out.2)
    else
      let out := buildRowAux N i rest fs
      (none :: out.1, out.2)

/-- The outer row loop of `create()` over the remaining row indices. -/
def buildGridAux (N : Nat) : List Nat → List Nat → GameGrid × List Nat
  | [], fs => ([], fs)
  | i :: rest, fs =>
    let row := buildRowAux N i (List.range N) fs
    let rows := buildGridAux N rest row.2
    (row.1 :: rows.1, rows.2)

/-- The grid `create()` builds from the frame list returned by
`shuffleGrid` (the `tileFrames` array). -/
def createGrid (N : Nat) (fs : List Nat) : GameGrid := (buildGridAux N (List.range N) fs).1

/-- The frames of the non-blank cells of one row, left to right. -/
def cellFrames (row : List (Option Tile)) : List Nat :=
  row.filterMap (fun c => c.map Tile.frame)

/-- The frames held by the grid's non-blank cells in row-major order. -/
def gridFrames (g : GameGrid) : List Nat := (g.map cellFrames).flatten

/-- The grid is an `N x N` matrix. -/
def wellFormed (N : Nat) (g : GameGrid) : Prop :=
  g.length = N ∧ ∀ row ∈ g, row.length = N

/-- Exactly one cell of the `N x N` grid is `null`. -/
def oneBlank (N : Nat) (g : GameGrid) : Prop :=
  ∃ b : Fin N × Fin N, getCell g b.1 b.2 = none ∧
    ∀ p : Fin N × Fin N, getCell g p.1 p.2 = none → p = b

/-- One cell's consistency check: a tile stored at `(r, c)` has `row = r`
and `col = c`. -/
def cellConsistent (N : Nat) (g : GameGrid) (p : Fin N × Fin N) : Bool :=
  match getCell g p.1 p.2 with
  | none => true
  | some t => decide (t.row = p.1 ∧ t.col = p.2)

/-- Every stored tile's `row`/`col` fields agree with its grid position. -/
def posCorrect (N : Nat) (g : GameGrid) : Prop :=
  ∀ p : Fin N × Fin N, cellConsistent N g p = true

/-- No tile object occupies two distinct cells. -/
def noDupTiles (N : Nat) (g : GameGrid) : Prop :=
  ∀ p q : Fin N × Fin N, p ≠ q →
    getCell g p.1 p.2 = none ∨ getCell g p.1 p.2 ≠ getCell g q.1 q.2

/-- The grid invariant of the game state: an `N x N` grid with exactly one
`null` cell, each tile in exactly one cell, and each tile's stored
`row`/`col` fields equal to its position in the grid array. -/
def gridInvariant (N : Nat) (g : GameGrid) : Prop :=
  wellFormed N g ∧ oneBlank N g ∧ posCorrect N g ∧ noDupTiles N g

instance (N : Nat) (g : GameGrid) : Decidable (wellFormed N g) := by
  unfold wellFormed; infer_instance

instance (N : Nat) (g : GameGrid) : Decidable (oneBlank N g) := by
  unfold oneBlank; infer_instance

instance (N : Nat) (g : GameGrid) : Decidable (posCorrect N g) := by
  unfold posCorrect; infer_instance

instance (N : Nat) (g : GameGrid) : Decidable (noDupTiles N g) := by
  unfold noDupTiles; infer_instance

instance (N : Nat) (g : GameGrid) : Decidable (gridInvariant N g) := by
  unfold gridInvariant; infer_instance

/-- A reachable 3x3 game state whose first row is fully solved (frames 0 and
1 at home, blank in its home corner) while rows 1 and 2 hold a 3-cycle of
the tiles with frames 3, 4, 5 - an even permutation with the blank at its
home cell, hence reachable by legal moves from the solved state. -/
def row0SolvedGrid : GameGrid :=
  [[some ⟨0, 0, 0⟩, some ⟨1, 0, 1⟩, none],
   [some ⟨4, 1, 0⟩, some ⟨5, 1, 1⟩, some ⟨3, 1, 2⟩],
   [some ⟨6, 2, 0⟩, some ⟨7, 2, 1⟩, some ⟨8, 2, 2⟩]]

/-! ## Basic list lemmas for the embedding's accessors -/

theorem nth_set_self {α : Type _} (l : List α) (n : Nat) (a : α) (h : n < l.length) :
    nth (l.set n a) n = some a := by
  induction l generalizing n with
  | nil => simp at h
  | cons b t ih =>
    cases n with
    | zero => rfl
    | succ m => exact ih m (Nat.lt_of_succ_lt_succ h)

theorem nth_set_other {α : Type _} (l : List α) (n m : Nat) (a : α) (h : n ≠ m) :
    nth (l.set n a) m = nth l m := by
  induction l generalizing n m with
  | nil => rfl
  | cons b t ih =>
    cases n with
    | zero =>
      cases m with
      | zero => exact absurd rfl h
      | succ k => rfl
    | succ n1 =>
      cases m with
      | zero => rfl
      | succ k => exact ih n1 k (fun hh => h (by rw [hh]))

theorem nth_lt_length {α : Type _} (l : List α) (n : Nat) (a : α) (h : nth l n = some a) :
    n < l.length := by
  induction l generalizing n with
  | nil => exact absurd h (by simp [nth])
  | cons b t ih =>
    cases n with
    | zero => simp
    | succ m => exact Nat.succ_lt_succ (ih m h)

theorem nth_mem {α : Type _} (l : List α) (n : Nat) (a : α) (h : nth l n = some a) :
    a ∈ l := by
  induction l generalizing n with
  | nil => exact absurd h (by simp [nth])
  | cons b t ih =>
    cases n with
    | zero =>
      injection h with h1
      rw [← h1]
      exact List.mem_cons_self b t
    | succ m => exact List.mem_cons_of_mem b (ih m h)

theorem nth_of_lt {α : Type _} (l : List α) (n : Nat) (h : n < l.length) :
    ∃ a, nth l n = some a := by
  induction l generalizing n with
  | nil => simp at h
  | cons b t ih =>
    cases n with
    | zero => exact ⟨b, rfl⟩
    | succ m => exact ih m (Nat.lt_of_succ_lt_succ h)

theorem set_nth_own {α : Type _} (l : List α) (n : Nat) (v : α) (h : nth l n = some v) :
    l.set n v = l := by
  induction l generalizing n with
  | nil => rfl
  | cons b t ih =>
    cases n with
    | zero =>
      cases h
      rfl
    | succ m =>
      show b :: t.set m v = b :: t
      rw [ih m h]

theorem set_oob {α : Type _} (l : List α) (n : Nat) (a : α) (h : l.length ≤ n) :
    l.set n a = l := by
  induction l generalizing n with
  | nil => rfl
  | cons b t ih =>
    cases n with
    | zero => simp at h
    | succ m =>
      show b :: t.set m a = b :: t
      rw [ih m (Nat.le_of_succ_le_succ h)]

theorem nth_ext {α : Type _} (l l' : List α) (h : ∀ n, nth l n = nth l' n) : l = l' := by
  induction l generalizing l' with
  | nil =>
    cases l' with
    | nil => rfl
    | cons b t => exact absurd (h 0).symm (by simp [nth])
  | cons a t ih =>
    cases l' with
    | nil => exact absurd (h 0) (by simp [nth])
    | cons b t' =>
      have h0 : a = b := by have := h 0; simpa [nth] using this
      rw [h0, ih t' (fun n => h (n + 1))]

theorem nth_map {α β : Type _} (f : α → β) (l : List α) (n : Nat) :
    nth (l.map f) n = (nth l n).map f := by
  induction l generalizing n with
  | nil => rfl
  | cons b t ih =>
    cases n with
    | zero => rfl
    | succ m => exact ih m

theorem mem_of_mem_set {α : Type _} (l : List α) (n : Nat) (a x : α) (h : x ∈ l.set n a) :
    x = a ∨ x ∈ l := by
  induction l generalizing n with
  | nil => exact Or.inr (by simp at h)
  | cons b t ih =>
    cases n with
    | zero =>
      rcases List.mem_cons.mp h with h1 | h1
      · exact Or.inl h1
      · exact Or.inr (List.mem_cons_of_mem b h1)
    | succ m =>
      rcases List.mem_cons.mp h with h1 | h1
      · exact Or.inr (h1 ▸ List.mem_cons_self b t)
      · rcases ih m h1 with h2 | h2
        · exact Or.inl h2
        · exact Or.inr (List.mem_cons_of_mem b h2)

/-! ## Lemmas about the grid accessors -/

theorem rowAt_setCell_self (g : GameGrid) (r c : Nat) (v : Option Tile) (hr : r < g.length) :
    rowAt (setCell g r c v) r = (rowAt g r).set c v := by
  unfold rowAt setCell
  rw [nth_set_self _ _ _ hr]
  rfl

theorem rowAt_setCell_other (g : GameGrid) (r c : Nat) (v : Option Tile) (r2 : Nat)
    (hne : r ≠ r2) : rowAt (setCell g r c v) r2 = rowAt g r2 := by
  unfold rowAt setCell
  rw [nth_set_other _ _ _ _ hne]

theorem setCell_oob (g : GameGrid) (r c : Nat) (v : Option Tile) (hr : g.length ≤ r) :
    setCell g r c v = g := set_oob _ _ _ hr

theorem rowAt_setCell_length (g : GameGrid) (r c : Nat) (v : Option Tile) (r2 : Nat) :
    (rowAt (setCell g r c v) r2).length = (rowAt g r2).length := by
  rcases eq_or_ne r r2 with h | h
  · subst h
    rcases Nat.lt_or_ge r g.length with hr | hr
    · rw [rowAt_setCell_self g r c v hr, List.length_set]
    · rw [setCell_oob g r c v hr]
  · rw [rowAt_setCell_other g r c v r2 h]

theorem getCell_setCell_self (g : GameGrid) (r c : Nat) (v : Option Tile)
    (hr : r < g.length) (hc : c < (rowAt g r).length) :
    getCell (setCell g r c v) r c = v := by
  unfold getCell
  rw [rowAt_setCell_self g r c v hr, nth_set_self _ _ _ hc]
  rfl

theorem getCell_setCell_other (g : GameGrid) (r c : Nat) (v : Option Tile) (r2 c2 : Nat)
    (hne : ¬(r = r2 ∧ c = c2)) :
    getCell (setCell g r c v) r2 c2 = getCell g r2 c2 := by
  rcases eq_or_ne r r2 with h | h
  · subst h
    have hc : c ≠ c2 := fun hh => hne ⟨rfl, hh⟩
    rcases Nat.lt_or_ge r g.length with hr | hr
    · unfold getCell
      rw [rowAt_setCell_self g r c v hr, nth_set_other _ _ _ _ hc]
    · rw [setCell_oob g r c v hr]
  · unfold getCell
    rw [rowAt_setCell_other g r c v r2 h]

theorem setCell_setCell_same (g : GameGrid) (r c : Nat) (v w : Option Tile) :
    setCell (setCell g r c v) r c w = setCell g r c w := by
  rcases Nat.lt_or_ge r g.length with hr | hr
  · show (setCell g r c v).set r ((rowAt (setCell g r c v) r).set c w) = _
    rw [rowAt_setCell_self g r c v hr, List.set_set]
    show (g.set r ((rowAt g r).set c v)).set r ((rowAt g r).set c w) = _
    rw [List.set_set]
    rfl
  · rw [setCell_oob g r c v hr]

theorem setCell_comm (g : GameGrid) (r c : Nat) (v : Option Tile) (r2 c2 : Nat)
    (w : Option Tile) (hne : ¬(r = r2 ∧ c = c2)) :
    setCell (setCell g r c v) r2 c2 w = setCell (setCell g r2 c2 w) r c v := by
  rcases eq_or_ne r r2 with h | h
  · subst h
    have hc : c ≠ c2 := fun hh => hne ⟨rfl, hh⟩
    rcases Nat.lt_or_ge r g.length with hr | hr
    · show (setCell g r c v).set r ((rowAt (setCell g r c v) r).set c2 w) =
        (setCell g r c2 w).set r ((rowAt (setCell g r c2 w) r).set c v)
      rw [rowAt_setCell_self g r c v hr, rowAt_setCell_self g r c2 w hr]
      show (g.set r ((rowAt g r).set c v)).set r (((rowAt g r).set c v).set c2 w) =
        (g.set r ((rowAt g r).set c2 w)).set r (((rowAt g r).set c2 w).set c v)
      rw [List.set_set, List.set_set, List.set_comm _ _ _ hc]
    · rw [setCell_oob g r c v hr, setCell_oob g r c2 w hr]
      exact (setCell_oob g r c v hr).symm
  · show (setCell g r c v).set r2 ((rowAt (setCell g r c v) r2).set c2 w) =
      (setCell g r2 c2 w).set r ((rowAt (setCell g r2 c2 w) r).set c v)
    rw [rowAt_setCell_other g r c v r2 h, rowAt_setCell_other g r2 c2 w r h.symm]
    exact List.set_comm _ _ _ h

theorem getCell_eq_some_nth (g : GameGrid) (r c : Nat) (t : Tile)
    (h : getCell g r c = some t) : nth (rowAt g r) c = some (some t) := by
  unfold getCell at h
  cases hh : nth (rowAt g r) c with
  | none => rw [hh] at h; exact absurd h (by simp)
  | some v => rw [hh] at h; cases h; rfl

theorem getCell_some_row_lt (g : GameGrid) (r c : Nat) (t : Tile)
    (h : getCell g r c = some t) : r < g.length := by
  have h1 := getCell_eq_some_nth g r c t h
  cases hh : nth g r with
  | none =>
    have : rowAt g r = [] := by unfold rowAt; rw [hh]; rfl
    rw [this] at h1
    exact absurd h1 (by simp [nth])
  | some row => exact nth_lt_length g r row hh

theorem getCell_none_nth (g : GameGrid) (r c : Nat)
    (h : getCell g r c = none) (hc : c < (rowAt g r).length) :
    nth (rowAt g r) c = some none := by
  obtain ⟨v, hv⟩ := nth_of_lt (rowAt g r) c hc
  unfold getCell at h
  rw [hv] at h
  cases v with
  | none => exact hv
  | some t => exact absurd h (by simp)

theorem setCell_own_some (g : GameGrid) (r c : Nat) (t : Tile)
    (h : getCell g r c = some t) : setCell g r c (some t) = g := by
  have h1 := getCell_eq_some_nth g r c t h
  unfold setCell
  rw [set_nth_own _ _ _ h1]
  have hr : r < g.length := getCell_some_row_lt g r c t h
  obtain ⟨row, hrow⟩ := nth_of_lt g r hr
  have : rowAt g r = row := by unfold rowAt; rw [hrow]; rfl
  rw [this]
  exact set_nth_own _ _ _ hrow

theorem setCell_own_none (g : GameGrid) (r c : Nat)
    (h : getCell g r c = none) (hr : r < g.length) (hc : c < (rowAt g r).length) :
    setCell g r c none = g := by
  have h1 := getCell_none_nth g r c h hc
  unfold setCell
  rw [set_nth_own _ _ _ h1]
  obtain ⟨row, hrow⟩ := nth_of_lt g r hr
  have : rowAt g r = row := by unfold rowAt; rw [hrow]; rfl
  rw [this]
  exact set_nth_own _ _ _ hrow

theorem getCell_some_col_lt (g : GameGrid) (r c : Nat) (t : Tile)
    (h : getCell g r c = some t) : c < (rowAt g r).length :=
  nth_lt_length _ _ _ (getCell_eq_some_nth g r c t h)

/-! ## C1: the win check -/

/-- C1: the claim is wrong about the code and right about the intent: the
win block of `checkWin` sits inside the outer row loop, so the game signals
a win (input off, music stopped, victory cue) as soon as the first row alone
is fully home.  On `row0SolvedGrid` - a legal, reachable state whose rows 1
and 2 are scrambled - `checkWin` signals a win even though the grid is not
solved in the sense of the spec's `isSolved()`. -/
theorem checkWin_signals_despite_unsolved_rows :
    checkWinSignals 3 row0SolvedGrid = true ∧ isSolvedSpec 3 row0SolvedGrid = false := by
  decide

/-! ## C2: grid population order -/

/-- C2 counterexample: `create()` fills each non-blank cell with
`tileFrames.pop()`, which removes the *last* element, so with the sequence
`[0,1,2,3,4,5,6,7]` the 0-th non-blank cell `(0,0)` receives the entry 7,
not the 0-th entry 0 as the claim states. -/
theorem createGrid_first_cell_not_first_entry :
    getCell (createGrid 3 [0, 1, 2, 3, 4, 5, 6, 7]) 0 0 = some ⟨7, 0, 0⟩ ∧ (7 : Nat) ≠ 0 := by
  decide

/-! ## C3, C4, C5: the shuffle generator -/

/-- C3 counterexample: on the post-shuffle sequence `[3,2,0,1,4,5,6,7]`
(size 3, 5 inversions, so the parity rule fails and the correction runs),
`shuffleGrid` returns `[3,2,1,0,4,5,6,7]`: `Phaser.Utils.Array.Swap`
exchanged the *values* 0 and 1 (at positions 2 and 3), not the entries at
the first two positions, which would have produced `[2,3,0,1,4,5,6,7]`. -/
theorem shuffleGrid_correction_not_first_two :
    solvableB 3 [3, 2, 0, 1, 4, 5, 6, 7] = false ∧
    shuffleGrid 3 [3, 2, 0, 1, 4, 5, 6, 7] = some [3, 2, 1, 0, 4, 5, 6, 7] ∧
    [3, 2, 1, 0, 4, 5, 6, 7] ≠ [2, 3, 0, 1, 4, 5, 6, 7] := by
  decide

/-- C4 counterexample: for N = 2 the blank's frame is `N - 1 = 1`, so the
value 1 is removed from the tile list before shuffling; on the (possible)
post-shuffle permutation `[0,2,3]`, which fails the parity rule, the
correction calls `Swap(tileNumbers, 0, 1)` with the item 1 absent and
Phaser throws - no sequence is returned at all, let alone one satisfying
the parity rule. -/
theorem shuffleGrid_size_two_error :
    List.Perm [0, 2, 3] (tileList 2) ∧ shuffleGrid 2 [0, 2, 3] = none := by
  decide

/-- C5 counterexample: for N = 2 and the possible post-shuffle permutation
`[2,3,0]` (even inversion count, so the correction runs), `shuffleGrid`
throws inside `Swap` because the item 1 is not in the array; it does not
return any sequence, so in particular not N*N - 1 = 3 distinct integers. -/
theorem shuffleGrid_size_two_no_sequence :
    List.Perm [2, 3, 0] (tileList 2) ∧ shuffleGrid 2 [2, 3, 0] = none := by
  decide

/-! ## C6: grid size configuration -/

/-- C6 counterexample: a configured size of 2 is not accepted - the guard
`if (!gridSize || gridSize < 3) gridSize = 4` silently replaces it with 4,
and no error of any kind is surfaced. -/
theorem gridSize_two_silently_replaced :
    normalizeGridSize (some 2) = 4 ∧ normalizeGridSize (some 2) ≠ 2 := by
  decide

/-- C6 amended: sizes below 3 (including 2) and an unset or zero global are
silently replaced by the default 4; every integer size >= 3 is accepted
unchanged.  No error is raised in any case (the normalization is total). -/
theorem gridSize_normalization (v : Int) :
    (3 ≤ v → normalizeGridSize (some v) = v) ∧
    (v < 3 → normalizeGridSize (some v) = 4) ∧
    normalizeGridSize none = 4 := by
  refine ⟨fun h => ?_, fun h => ?_, rfl⟩
  · show (if v = 0 ∨ v < 3 then 4 else v) = v
    rw [if_neg (by omega)]
  · show (if v = 0 ∨ v < 3 then 4 else v) = (4 : Int)
    rw [if_pos (Or.inr h)]

/-- Witness for C6's amended claim at the concrete sizes 5 and 2. -/
theorem gridSize_normalization_witness :
    normalizeGridSize (some 5) = 5 ∧ normalizeGridSize (some 2) = 4 ∧
    normalizeGridSize none = 4 :=
  ⟨(gridSize_normalization 5).1 (by decide), (gridSize_normalization 2).2.1 (by decide),
    (gridSize_normalization 2).2.2⟩

/-! ## C7: activations away from the blank are no-ops -/

/-- C7: clicking a tile none of whose in-bounds orthogonal neighbours is the
blank cell leaves the grid and the tile's `row`/`col` fields exactly
unchanged; `tileClicked` is total, so no error reaches the caller. -/
theorem tileClicked_no_blank_neighbor_noop (N : Nat) (g : GameGrid) (tile : Tile)
    (hup : 0 < tile.row → getCell g (tile.row - 1) tile.col ≠ none)
    (hdown : tile.row < N - 1 → getCell g (tile.row + 1) tile.col ≠ none)
    (hleft : 0 < tile.col → getCell g tile.row (tile.col - 1) ≠ none)
    (hright : tile.col < N - 1 → getCell g tile.row (tile.col + 1) ≠ none) :
    tileClicked N g tile = (g, tile) := by
  have h1 : ¬(0 < tile.row ∧ getCell g (tile.row - 1) tile.col = none) :=
    fun h => hup h.1 h.2
  have h2 : ¬(tile.row < N - 1 ∧ getCell g (tile.row + 1) tile.col = none) :=
    fun h => hdown h.1 h.2
  have h3 : ¬(0 < tile.col ∧ getCell g tile.row (tile.col - 1) = none) :=
    fun h => hleft h.1 h.2
  have h4 : ¬(tile.col < N - 1 ∧ getCell g tile.row (tile.col + 1) = none) :=
    fun h => hright h.1 h.2
  unfold tileClicked
  rw [if_neg h1, if_neg h2, if_neg h3, if_neg h4]

/-- Witness for C7 on a concrete 2x2 grid: the tile at (1,0) has the blank
at the non-adjacent diagonal cell (0,1), and clicking it changes nothing. -/
theorem tileClicked_no_blank_neighbor_noop_witness :
    tileClicked 2 [[some ⟨0, 0, 0⟩, none], [some ⟨2, 1, 0⟩, some ⟨3, 1, 1⟩]] ⟨2, 1, 0⟩ =
      ([[some ⟨0, 0, 0⟩, none], [some ⟨2, 1, 0⟩, some ⟨3, 1, 1⟩]], ⟨2, 1, 0⟩) :=
  tileClicked_no_blank_neighbor_noop 2 _ ⟨2, 1, 0⟩ (by decide) (by decide) (by decide)
    (by decide)

/-! ## C9: when the win check runs -/

/-- C9 counterexample: the win check is not among the synchronous effects of
`slideTile` - the logical grid swap and the slide sound are, but `checkWin`
appears only as the `onComplete` payload of the 600ms tween. -/
theorem winCheck_not_synchronous : SlideAction.winCheck ∉ slideTileTrace := by
  decide

/-- C9 amended: the logical grid swap is synchronous inside `slideTile`, but
the win check is not performed synchronously after it: it is attached as the
`onComplete` callback of the 600ms slide tween, so it runs only when that
animation completes. -/
theorem winCheck_attached_to_tween :
    SlideAction.winCheck ∉ slideTileTrace ∧
    SlideAction.addTween 600 SlideAction.winCheck ∈ slideTileTrace ∧
    SlideAction.gridSwap ∈ slideTileTrace := by
  decide

/-! ## C8: the slide move is its own inverse -/

theorem rowAt_length_of_wf (N : Nat) (g : GameGrid) (wf : wellFormed N g) (r : Nat)
    (hr : r < N) : (rowAt g r).length = N := by
  have hrg : r < g.length := by rw [wf.1]; exact hr
  obtain ⟨row, hrow⟩ := nth_of_lt g r hrg
  have hrw : rowAt g r = row := by unfold rowAt; rw [hrow]; rfl
  rw [hrw]
  exact wf.2 row (nth_mem g r row hrow)

/-- C8: on an invariant-satisfying grid, sliding a tile into the adjacent
blank cell and then sliding it back returns both the grid and the tile's
`row`/`col` fields to their prior state. -/
theorem slideTile_self_inverse (N : Nat) (g : GameGrid) (tile : Tile) (r2 c2 : Nat)
    (hinv : gridInvariant N g)
    (ht : getCell g tile.row tile.col = some tile)
    (hb : getCell g r2 c2 = none)
    (hr2 : r2 < N) (hc2 : c2 < N)
    (_hadj : (r2 = tile.row ∧ (c2 = tile.col + 1 ∨ c2 + 1 = tile.col)) ∨
            (c2 = tile.col ∧ (r2 = tile.row + 1 ∨ r2 + 1 = tile.row))) :
    slideTile (slideTile g tile r2 c2).1 (slideTile g tile r2 c2).2 tile.row tile.col =
      (g, tile) := by
  obtain ⟨wf, -, -, -⟩ := hinv
  have hglen : g.length = N := wf.1
  have hne : ¬(r2 = tile.row ∧ c2 = tile.col) := by
    rintro ⟨e1, e2⟩
    rw [e1, e2, ht] at hb
    exact absurd hb (by simp)
  have hr2g : r2 < g.length := by rw [hglen]; exact hr2
  have hc2g : c2 < (rowAt g r2).length := by
    rw [rowAt_length_of_wf N g wf r2 hr2]
    exact hc2
  show (setCell (setCell (setCell (setCell g r2 c2 (some ⟨tile.frame, r2, c2⟩))
      tile.row tile.col none) tile.row tile.col (some tile)) r2 c2 none, tile) = (g, tile)
  rw [setCell_setCell_same]
  rw [setCell_comm g r2 c2 (some ⟨tile.frame, r2, c2⟩) tile.row tile.col (some tile) hne]
  rw [setCell_own_some g tile.row tile.col tile ht]
  rw [setCell_setCell_same]
  rw [setCell_own_none g r2 c2 hb hr2g hc2g]

/-- Witness for C8 on a concrete 2x2 grid: the tile at (0,0) slides right
into the blank at (0,1) and back. -/
theorem slideTile_self_inverse_witness :
    slideTile
        (slideTile [[some ⟨0, 0, 0⟩, none], [some ⟨2, 1, 0⟩, some ⟨3, 1, 1⟩]] ⟨0, 0, 0⟩ 0 1).1
        (slideTile [[some ⟨0, 0, 0⟩, none], [some ⟨2, 1, 0⟩, some ⟨3, 1, 1⟩]] ⟨0, 0, 0⟩ 0 1).2
        0 0 =
      ([[some ⟨0, 0, 0⟩, none], [some ⟨2, 1, 0⟩, some ⟨3, 1, 1⟩]], ⟨0, 0, 0⟩) :=
  slideTile_self_inverse 2 _ ⟨0, 0, 0⟩ 0 1 (by decide) (by decide) (by decide) (by decide)
    (by decide) (by decide)

/-! ## C10: every activation preserves the grid invariant -/

theorem posCorrect_get {N : Nat} {g : GameGrid} (pc : posCorrect N g) (p : Fin N × Fin N)
    (t : Tile) (h : getCell g p.1 p.2 = some t) : t.row = p.1.val ∧ t.col = p.2.val := by
  have hp := pc p
  unfold cellConsistent at hp
  rw [h] at hp
  exact of_decide_eq_true hp

theorem finpair_ext {N : Nat} (p q : Fin N × Fin N) (h1 : p.1.val = q.1.val)
    (h2 : p.2.val = q.2.val) : p = q := by
  obtain ⟨pa, pb⟩ := p
  obtain ⟨qa, qb⟩ := q
  simp only [Prod.mk.injEq]
  exact ⟨Fin.ext h1, Fin.ext h2⟩

theorem wellFormed_setCell (N : Nat) (g : GameGrid) (r c : Nat) (v : Option Tile)
    (wf : wellFormed N g) : wellFormed N (setCell g r c v) := by
  rcases Nat.lt_or_ge r g.length with hr | hr
  · constructor
    · show (g.set r ((rowAt g r).set c v)).length = N
      rw [List.length_set]
      exact wf.1
    · intro row hrow
      rcases mem_of_mem_set _ _ _ _ hrow with h | h
      · rw [h, List.length_set]
        exact rowAt_length_of_wf N g wf r (by rw [← wf.1]; exact hr)
      · exact wf.2 row h
  · rw [setCell_oob g r c v hr]
    exact wf

theorem slideTile_preserves_invariant (N : Nat) (g : GameGrid) (tile : Tile) (r2 c2 : Nat)
    (hinv : gridInvariant N g)
    (ht : getCell g tile.row tile.col = some tile)
    (hb : getCell g r2 c2 = none)
    (hr2 : r2 < N) (hc2 : c2 < N) :
    gridInvariant N (slideTile g tile r2 c2).1 := by
  obtain ⟨wf, ob, pc, nd⟩ := hinv
  have hglen : g.length = N := wf.1
  have htrg : tile.row < g.length := getCell_some_row_lt g _ _ _ ht
  have htr : tile.row < N := by rw [← hglen]; exact htrg
  have htc : tile.col < N := by
    have h1 := getCell_some_col_lt g _ _ _ ht
    rwa [rowAt_length_of_wf N g wf tile.row htr] at h1
  have hne : ¬(r2 = tile.row ∧ c2 = tile.col) := by
    rintro ⟨e1, e2⟩
    rw [e1, e2, ht] at hb
    exact absurd hb (by simp)
  have hne2 : ¬(tile.row = r2 ∧ tile.col = c2) := fun h => hne ⟨h.1.symm, h.2.symm⟩
  have hr2g : r2 < g.length := by rw [hglen]; exact hr2
  have hc2g : c2 < (rowAt g r2).length := by
    rw [rowAt_length_of_wf N g wf r2 hr2]
    exact hc2
  have hg' : (slideTile g tile r2 c2).1 =
      setCell (setCell g r2 c2 (some ⟨tile.frame, r2, c2⟩)) tile.row tile.col none := rfl
  have hwfmid : wellFormed N (setCell g r2 c2 (some ⟨tile.frame, r2, c2⟩)) :=
    wellFormed_setCell N g r2 c2 _ wf
  have hA : getCell (slideTile g tile r2 c2).1 tile.row tile.col = none := by
    rw [hg']
    exact getCell_setCell_self _ tile.row tile.col none (by rw [hwfmid.1]; exact htr)
      (by rw [rowAt_length_of_wf N _ hwfmid tile.row htr]; exact htc)
  have hB : getCell (slideTile g tile r2 c2).1 r2 c2 = some ⟨tile.frame, r2, c2⟩ := by
    rw [hg']
    rw [getCell_setCell_other _ tile.row tile.col none r2 c2 hne2]
    exact getCell_setCell_self g r2 c2 _ hr2g hc2g
  have hC : ∀ r c : Nat, ¬(r = tile.row ∧ c = tile.col) → ¬(r = r2 ∧ c = c2) →
      getCell (slideTile g tile r2 c2).1 r c = getCell g r c := by
    intro r c hc1 hc2'
    rw [hg']
    rw [getCell_setCell_other _ tile.row tile.col none r c
      (fun h => hc1 ⟨h.1.symm, h.2.symm⟩)]
    rw [getCell_setCell_other g r2 c2 _ r c (fun h => hc2' ⟨h.1.symm, h.2.symm⟩)]
  refine ⟨?_, ?_, ?_, ?_⟩
  · rw [hg']
    exact wellFormed_setCell N _ tile.row tile.col none hwfmid
  · refine ⟨(⟨tile.row, htr⟩, ⟨tile.col, htc⟩), hA, ?_⟩
    intro p hp
    by_cases hp1 : p.1.val = tile.row ∧ p.2.val = tile.col
    · exact finpair_ext p _ hp1.1 hp1.2
    · by_cases hp2 : p.1.val = r2 ∧ p.2.val = c2
      · exfalso
        rw [hp2.1, hp2.2, hB] at hp
        exact absurd hp (by simp)
      · exfalso
        rw [hC p.1 p.2 hp1 hp2] at hp
        obtain ⟨b, hbnone, huniq⟩ := ob
        have e1 : p = b := huniq p hp
        have e2 : ((⟨r2, hr2⟩ : Fin N), (⟨c2, hc2⟩ : Fin N)) = b := by
          apply huniq
          exact hb
        rw [← e2] at e1
        have : p.1.val = r2 ∧ p.2.val = c2 := by
          rw [e1]
          exact ⟨rfl, rfl⟩
        exact hp2 this
  · intro p
    by_cases hp1 : p.1.val = tile.row ∧ p.2.val = tile.col
    · have hcell : getCell (slideTile g tile r2 c2).1 p.1 p.2 = none := by
        rw [hp1.1, hp1.2]
        exact hA
      unfold cellConsistent
      rw [hcell]
    · by_cases hp2 : p.1.val = r2 ∧ p.2.val = c2
      · have hcell : getCell (slideTile g tile r2 c2).1 p.1 p.2 =
            some ⟨tile.frame, r2, c2⟩ := by
          rw [hp2.1, hp2.2]
          exact hB
        unfold cellConsistent
        rw [hcell]
        simp [hp2.1, hp2.2]
      · have hcell := hC p.1 p.2 hp1 hp2
        have hold := pc p
        unfold cellConsistent at hold ⊢
        rw [hcell]
        exact hold
  · intro p q hpq
    by_cases hp1 : p.1.val = tile.row ∧ p.2.val = tile.col
    · left
      rw [hp1.1, hp1.2]
      exact hA
    · by_cases hp2 : p.1.val = r2 ∧ p.2.val = c2
      · right
        have hpv : getCell (slideTile g tile r2 c2).1 p.1 p.2 =
            some ⟨tile.frame, r2, c2⟩ := by
          rw [hp2.1, hp2.2]
          exact hB
        by_cases hq1 : q.1.val = tile.row ∧ q.2.val = tile.col
        · rw [hpv, hq1.1, hq1.2, hA]
          simp
        · by_cases hq2 : q.1.val = r2 ∧ q.2.val = c2
          · exact absurd (finpair_ext p q (by rw [hp2.1, hq2.1]) (by rw [hp2.2, hq2.2])) hpq
          · have hqv := hC q.1 q.2 hq1 hq2
            rw [hpv, hqv]
            cases hqt : getCell g q.1 q.2 with
            | none => simp
            | some t =>
              have hq := posCorrect_get pc q t hqt
              simp only [ne_eq, Option.some.injEq]
              intro hmt
              apply hq2
              constructor
              · rw [← hq.1, ← hmt]
              · rw [← hq.2, ← hmt]
      · have hpv := hC p.1 p.2 hp1 hp2
        cases hpt : getCell g p.1 p.2 with
        | none =>
          left
          rw [hpv, hpt]
        | some t =>
          right
          rw [hpv, hpt]
          have hp' := posCorrect_get pc p t hpt
          by_cases hq1 : q.1.val = tile.row ∧ q.2.val = tile.col
          · rw [hq1.1, hq1.2, hA]
            simp
          · by_cases hq2 : q.1.val = r2 ∧ q.2.val = c2
            · have hqv : getCell (slideTile g tile r2 c2).1 q.1 q.2 =
                  some ⟨tile.frame, r2, c2⟩ := by
                rw [hq2.1, hq2.2]
                exact hB
              rw [hqv]
              simp only [ne_eq, Option.some.injEq]
              intro hmt
              apply hp2
              constructor
              · rw [← hp'.1, hmt]
              · rw [← hp'.2, hmt]
            · have hqv := hC q.1 q.2 hq1 hq2
              rw [hqv]
              rcases nd p q hpq with h | h
              · rw [hpt] at h
                exact absurd h (by simp)
              · rw [hpt] at h
                exact h

/-- C10: handling any activation on a grid satisfying the invariant (one
blank cell, each tile in exactly one cell, `row`/`col` fields matching the
grid position) yields a grid that still satisfies all three properties.
The clicked tile is one of the grid's tiles, i.e. it occupies the cell its
fields name. -/
theorem tileClicked_preserves_invariant (N : Nat) (g : GameGrid) (tile : Tile)
    (hinv : gridInvariant N g)
    (ht : getCell g tile.row tile.col = some tile) :
    gridInvariant N (tileClicked N g tile).1 := by
  have htr : tile.row < N := by
    rw [← hinv.1.1]
    exact getCell_some_row_lt g _ _ _ ht
  have htc : tile.col < N := by
    have h1 := getCell_some_col_lt g _ _ _ ht
    rwa [rowAt_length_of_wf N g hinv.1 tile.row htr] at h1
  unfold tileClicked
  split_ifs with h1 h2 h3 h4
  · exact slideTile_preserves_invariant N g tile _ _ hinv ht h1.2 (by omega) htc
  · exact slideTile_preserves_invariant N g tile _ _ hinv ht h2.2 (by omega) htc
  · exact slideTile_preserves_invariant N g tile _ _ hinv ht h3.2 htr (by omega)
  · exact slideTile_preserves_invariant N g tile _ _ hinv ht h4.2 htr (by omega)
  · exact hinv

/-- Witness for C10 on a concrete 2x2 grid: clicking the tile at (0,0)
slides it right into the blank at (0,1) and the invariant still holds. -/
theorem tileClicked_preserves_invariant_witness :
    gridInvariant 2
      (tileClicked 2 [[some ⟨0, 0, 0⟩, none], [some ⟨2, 1, 0⟩, some ⟨3, 1, 1⟩]] ⟨0, 0, 0⟩).1 :=
  tileClicked_preserves_invariant 2 _ ⟨0, 0, 0⟩ (by decide) (by decide)

/-! ## C3, C4, C5 amended: lemmas about the shuffle correction -/

theorem countP_congr_own {α : Type _} (l : List α) (p q : α → Bool)
    (h : ∀ a ∈ l, p a = q a) : l.countP p = l.countP q := by
  induction l with
  | nil => rfl
  | cons a t ih =>
    rw [List.countP_cons, List.countP_cons, h a (List.mem_cons_self a t),
      ih (fun b hb => h b (List.mem_cons_of_mem a hb))]

theorem countP_eqval_zero (l : List Nat) (a : Nat) (h : a ∉ l) :
    l.countP (fun y => decide (y = a)) = 0 := by
  induction l with
  | nil => rfl
  | cons b t ih =>
    rw [List.countP_cons]
    have hb : ¬(b = a) := fun hh => h (by rw [← hh]; exact List.mem_cons_self b t)
    rw [ih (fun hm => h (List.mem_cons_of_mem b hm))]
    simp [hb]

theorem countP_eqval_one (l : List Nat) (a : Nat) (hnd : l.Nodup) (h : a ∈ l) :
    l.countP (fun y => decide (y = a)) = 1 := by
  induction l with
  | nil => exact absurd h (List.not_mem_nil a)
  | cons b t ih =>
    rw [List.nodup_cons] at hnd
    rw [List.countP_cons]
    by_cases hb : b = a
    · subst hb
      rw [countP_eqval_zero t b hnd.1]
      simp
    · have ha : a ∈ t := by
        rcases List.mem_cons.mp h with h1 | h1
        · exact absurd h1.symm hb
        · exact h1
      rw [ih hnd.2 ha]
      simp [hb]

theorem indexOfN_nth (a : Nat) (l : List Nat) (h : a ∈ l) :
    nth l (indexOfN a l) = some a := by
  induction l with
  | nil => exact absurd h (List.not_mem_nil a)
  | cons b t ih =>
    show nth (b :: t) (if b = a then 0 else indexOfN a t + 1) = some a
    by_cases hb : b = a
    · rw [if_pos hb]
      show some b = some a
      rw [hb]
    · rw [if_neg hb]
      show nth t (indexOfN a t) = some a
      apply ih
      rcases List.mem_cons.mp h with h1 | h1
      · exact absurd h1.symm hb
      · exact h1

theorem indexOfN_unique (a : Nat) (l : List Nat) (k : Nat) (hnd : l.Nodup)
    (h : nth l k = some a) : k = indexOfN a l := by
  induction l generalizing k with
  | nil => exact absurd h (by simp [nth])
  | cons b t ih =>
    rw [List.nodup_cons] at hnd
    cases k with
    | zero =>
      injection h with h1
      show 0 = if b = a then 0 else indexOfN a t + 1
      rw [if_pos h1]
    | succ k1 =>
      have ha : a ∈ t := nth_mem t k1 a h
      have hb : ¬(b = a) := fun hh => hnd.1 (by rw [hh]; exact ha)
      show k1 + 1 = if b = a then 0 else indexOfN a t + 1
      rw [if_neg hb, ih k1 hnd.2 h]

theorem phaserSwap_eq_map (l : List Nat) (hnd : l.Nodup) (h0 : 0 ∈ l) (h1 : 1 ∈ l) :
    phaserSwap l 0 1 = some (l.map swap01) := by
  unfold phaserSwap
  rw [if_neg (by omega : ¬(0 : Nat) = 1), if_pos ⟨h0, h1⟩]
  congr 1
  have hp := indexOfN_nth 0 l h0
  have hq := indexOfN_nth 1 l h1
  have hpq : indexOfN 0 l ≠ indexOfN 1 l := by
    intro hh
    rw [hh, hq] at hp
    exact absurd hp (by simp)
  have hplen : indexOfN 0 l < l.length := nth_lt_length l _ 0 hp
  have hqlen : indexOfN 1 l < l.length := nth_lt_length l _ 1 hq
  apply nth_ext
  intro n
  rw [nth_map]
  by_cases hnq : n = indexOfN 1 l
  · subst hnq
    rw [nth_set_self _ _ _ (by rw [List.length_set]; exact hqlen), hq]
    rfl
  · rw [nth_set_other _ _ _ _ (fun hh => hnq hh.symm)]
    by_cases hnp : n = indexOfN 0 l
    · subst hnp
      rw [nth_set_self _ _ _ hplen, hp]
      rfl
    · rw [nth_set_other _ _ _ _ (fun hh => hnp hh.symm)]
      cases hv : nth l n with
      | none => rfl
      | some v =>
        have hv0 : ¬(v = 0) := fun hh => hnp (indexOfN_unique 0 l n hnd (by rw [hv, hh]))
        have hv1 : ¬(v = 1) := fun hh => hnq (indexOfN_unique 1 l n hnd (by rw [hv, hh]))
        show some v = some (swap01 v)
        unfold swap01
        rw [if_neg hv0, if_neg hv1]

theorem inversions_map_swap01 (l : List Nat) (hnd : l.Nodup) :
    inversions (l.map swap01) % 2 =
      (inversions l + (if 0 ∈ l ∧ 1 ∈ l then 1 else 0)) % 2 := by
  induction l with
  | nil => rfl
  | cons x xs ih =>
    rw [List.nodup_cons] at hnd
    have ih2 := ih hnd.2
    have hinvc : inversions (x :: xs) =
        xs.countP (fun y => decide (y < x)) + inversions xs := rfl
    have hinvm : inversions ((x :: xs).map swap01) =
        (xs.map swap01).countP (fun y => decide (y < swap01 x)) +
          inversions (xs.map swap01) := rfl
    by_cases hx0 : x = 0
    · subst hx0
      have h0xs : 0 ∉ xs := hnd.1
      have hhead : (xs.map swap01).countP (fun y => decide (y < swap01 0)) =
          xs.countP (fun y => decide (y = 1)) := by
        rw [List.countP_map]
        apply countP_congr_own
        intro a _
        show decide (swap01 a < swap01 0) = decide (a = 1)
        by_cases ha0 : a = 0
        · subst ha0
          rfl
        · by_cases ha1 : a = 1
          · subst ha1
            rfl
          · have hsa : swap01 a = a := by unfold swap01; rw [if_neg ha0, if_neg ha1]
            rw [hsa]
            show decide (a < 1) = decide (a = 1)
            exact decide_eq_decide.mpr (by omega)
      have hheadold : xs.countP (fun y => decide (y < 0)) = 0 := by
        rw [List.countP_eq_zero]
        intro a _
        simp
      by_cases h1xs : 1 ∈ xs
      · have hcnt := countP_eqval_one xs 1 hnd.2 h1xs
        have hif1 : (if 0 ∈ 0 :: xs ∧ 1 ∈ 0 :: xs then 1 else 0) = 1 :=
          if_pos ⟨List.mem_cons_self 0 xs, List.mem_cons_of_mem 0 h1xs⟩
        have hif2 : (if 0 ∈ xs ∧ 1 ∈ xs then 1 else 0) = 0 :=
          if_neg (fun hc => h0xs hc.1)
        rw [hif2] at ih2
        rw [hinvm, hinvc, hhead, hcnt, hheadold, hif1]
        omega
      · have hcnt := countP_eqval_zero xs 1 h1xs
        have hif1 : (if 0 ∈ 0 :: xs ∧ 1 ∈ 0 :: xs then 1 else 0) = 0 := by
          apply if_neg
          rintro ⟨-, hc⟩
          rcases List.mem_cons.mp hc with h | h
          · exact absurd h (by omega)
          · exact h1xs h
        have hif2 : (if 0 ∈ xs ∧ 1 ∈ xs then 1 else 0) = 0 :=
          if_neg (fun hc => h0xs hc.1)
        rw [hif2] at ih2
        rw [hinvm, hinvc, hhead, hcnt, hheadold, hif1]
        omega
    · by_cases hx1 : x = 1
      · subst hx1
        have h1xs : 1 ∉ xs := hnd.1
        have hhead : (xs.map swap01).countP (fun y => decide (y < swap01 1)) = 0 := by
          rw [List.countP_map, List.countP_eq_zero]
          intro a _
          intro hc
          have hc' : decide (swap01 a < swap01 1) = true := hc
          have hlt := of_decide_eq_true hc'
          have hz : swap01 1 = 0 := rfl
          rw [hz] at hlt
          omega
        have hheadold : xs.countP (fun y => decide (y < 1)) =
            xs.countP (fun y => decide (y = 0)) := by
          apply countP_congr_own
          intro a _
          exact decide_eq_decide.mpr (by omega)
        by_cases h0xs : 0 ∈ xs
        · have hcnt := countP_eqval_one xs 0 hnd.2 h0xs
          have hif1 : (if 0 ∈ 1 :: xs ∧ 1 ∈ 1 :: xs then 1 else 0) = 1 :=
            if_pos ⟨List.mem_cons_of_mem 1 h0xs, List.mem_cons_self 1 xs⟩
          have hif2 : (if 0 ∈ xs ∧ 1 ∈ xs then 1 else 0) = 0 :=
            if_neg (fun hc => h1xs hc.2)
          rw [hif2] at ih2
          rw [hinvm, hinvc, hhead, hheadold, hcnt, hif1]
          omega
        · have hcnt := countP_eqval_zero xs 0 h0xs
          have hif1 : (if 0 ∈ 1 :: xs ∧ 1 ∈ 1 :: xs then 1 else 0) = 0 := by
            apply if_neg
            rintro ⟨hc, -⟩
            rcases List.mem_cons.mp hc with h | h
            · exact absurd h (by omega)
            · exact h0xs h
          have hif2 : (if 0 ∈ xs ∧ 1 ∈ xs then 1 else 0) = 0 :=
            if_neg (fun hc => h1xs hc.2)
          rw [hif2] at ih2
          rw [hinvm, hinvc, hhead, hheadold, hcnt, hif1]
          omega
      · have hsx : swap01 x = x := by unfold swap01; rw [if_neg hx0, if_neg hx1]
        have hhead : (xs.map swap01).countP (fun y => decide (y < swap01 x)) =
            xs.countP (fun y => decide (y < x)) := by
          rw [List.countP_map]
          apply countP_congr_own
          intro a _
          show decide (swap01 a < swap01 x) = decide (a < x)
          rw [hsx]
          by_cases ha0 : a = 0
          · subst ha0
            show decide (1 < x) = decide (0 < x)
            exact decide_eq_decide.mpr (by omega)
          · by_cases ha1 : a = 1
            · subst ha1
              show decide (0 < x) = decide (1 < x)
              exact decide_eq_decide.mpr (by omega)
            · have hsa : swap01 a = a := by unfold swap01; rw [if_neg ha0, if_neg ha1]
              rw [hsa]
        have hif : (if 0 ∈ x :: xs ∧ 1 ∈ x :: xs then 1 else 0) =
            (if 0 ∈ xs ∧ 1 ∈ xs then 1 else 0) := by
          by_cases hc : 0 ∈ xs ∧ 1 ∈ xs
          · rw [if_pos hc,
              if_pos ⟨List.mem_cons_of_mem x hc.1, List.mem_cons_of_mem x hc.2⟩]
          · rw [if_neg hc]
            apply if_neg
            rintro ⟨hc0, hc1⟩
            rcases List.mem_cons.mp hc0 with h | h
            · exact hx0 h.symm
            · rcases List.mem_cons.mp hc1 with h' | h'
              · exact hx1 h'.symm
              · exact hc ⟨h, h'⟩
        rw [hinvm, hinvc, hhead, hif]
        omega

theorem solvableB_iff (N : Nat) (l : List Nat) :
    solvableB N l = true ↔ inversions l % 2 ≠ N % 2 := by
  unfold solvableB
  rcases Nat.mod_two_eq_zero_or_one N with h | h <;>
    rcases Nat.mod_two_eq_zero_or_one (inversions l) with h2 | h2 <;>
    rw [h, h2] <;> decide

theorem tileList_nodup (N : Nat) : (tileList N).Nodup :=
  (List.nodup_range (N * N)).erase (N - 1)

theorem tileList_length (N : Nat) (h : 1 ≤ N) : (tileList N).length = N * N - 1 := by
  unfold tileList
  have hNN : N ≤ N * N := Nat.le_mul_of_pos_left N (by omega)
  rw [List.length_erase_of_mem (List.mem_range.mpr (by omega)), List.length_range]

theorem tileList_mem (N v : Nat) (hv : v < N * N) (hne : v ≠ N - 1) : v ∈ tileList N :=
  (List.mem_erase_of_ne hne).mpr (List.mem_range.mpr hv)

theorem swap01_involutive (a : Nat) : swap01 (swap01 a) = a := by
  unfold swap01
  by_cases h0 : a = 0
  · simp [h0]
  · by_cases h1 : a = 1
    · simp [h1]
    · simp [h0, h1]

theorem swap01_injective : Function.Injective swap01 := by
  intro x y h
  unfold swap01 at h
  split_ifs at h <;> omega

theorem map_swap01_perm (l : List Nat) (hnd : l.Nodup) (h0 : 0 ∈ l) (h1 : 1 ∈ l) :
    List.Perm (l.map swap01) l := by
  rw [List.perm_iff_count]
  intro a
  have hkey : List.count a (l.map swap01) = List.count (swap01 a) l := by
    calc List.count a (l.map swap01)
        = List.count (swap01 (swap01 a)) (l.map swap01) := by rw [swap01_involutive]
      _ = List.count (swap01 a) l := List.count_map_of_injective l swap01 swap01_injective _
  rw [hkey]
  by_cases ha0 : a = 0
  · subst ha0
    show List.count (swap01 0) l = List.count 0 l
    have e1 : swap01 0 = 1 := rfl
    rw [e1, List.count_eq_one_of_mem hnd h1, List.count_eq_one_of_mem hnd h0]
  · by_cases ha1 : a = 1
    · subst ha1
      show List.count (swap01 1) l = List.count 1 l
      have e1 : swap01 1 = 0 := rfl
      rw [e1, List.count_eq_one_of_mem hnd h0, List.count_eq_one_of_mem hnd h1]
    · have hsa : swap01 a = a := by unfold swap01; rw [if_neg ha0, if_neg ha1]
      rw [hsa]

/-- C3 amended: when the post-shuffle sequence fails the parity rule, the
correction exchanges the two entries whose *values* are 0 and 1 - wherever
they sit in the sequence - and every entry holding another value stays
unchanged (the result is exactly the pointwise image under the transposition
`swap01` of the values 0 and 1). -/
theorem shuffleGrid_correction_swaps_values (N : Nat) (perm : List Nat)
    (hnd : perm.Nodup) (h0 : 0 ∈ perm) (h1 : 1 ∈ perm)
    (hfail : solvableB N perm = false) :
    shuffleGrid N perm = some (perm.map swap01) := by
  unfold shuffleGrid
  rw [hfail]
  show phaserSwap perm 0 1 = some (perm.map swap01)
  exact phaserSwap_eq_map perm hnd h0 h1

/-- Witness for C3's amended claim: on `[3,2,0,1,4,5,6,7]` (size 3, parity
rule fails) the correction returns the value-swapped `[3,2,1,0,4,5,6,7]`. -/
theorem shuffleGrid_correction_swaps_values_witness :
    shuffleGrid 3 [3, 2, 0, 1, 4, 5, 6, 7] = some ([3, 2, 0, 1, 4, 5, 6, 7].map swap01) :=
  shuffleGrid_correction_swaps_values 3 _ (by decide) (by decide) (by decide) (by decide)

/-- C4 amended: for every grid size N >= 3 and every possible post-shuffle
permutation of the tile list, `shuffleGrid` returns a sequence satisfying
the N-parity solvability rule: inversion count even when N is odd, odd when
N is even.  (For N = 2 the correction can throw; see the counterexample.) -/
theorem shuffleGrid_parity_rule (N : Nat) (hN : 3 ≤ N) (perm : List Nat)
    (hperm : List.Perm perm (tileList N)) :
    ∃ out, shuffleGrid N perm = some out ∧
      (N % 2 = 1 → inversions out % 2 = 0) ∧ (N % 2 = 0 → inversions out % 2 = 1) := by
  have hnd : perm.Nodup := hperm.nodup_iff.mpr (tileList_nodup N)
  have hNN : N ≤ N * N := Nat.le_mul_of_pos_left N (by omega)
  have h0 : 0 ∈ perm := hperm.mem_iff.mpr (tileList_mem N 0 (by omega) (by omega))
  have h1 : 1 ∈ perm := hperm.mem_iff.mpr (tileList_mem N 1 (by omega) (by omega))
  cases hsolv : solvableB N perm with
  | true =>
    have hpar := (solvableB_iff N perm).mp hsolv
    have hmod := Nat.mod_two_eq_zero_or_one (inversions perm)
    refine ⟨perm, ?_, fun h => by omega, fun h => by omega⟩
    unfold shuffleGrid
    rw [hsolv]
    rfl
  | false =>
    have hpar : inversions perm % 2 = N % 2 := by
      by_contra hc
      rw [(solvableB_iff N perm).mpr hc] at hsolv
      exact absurd hsolv (by simp)
    have hflip := inversions_map_swap01 perm hnd
    rw [if_pos ⟨h0, h1⟩] at hflip
    have hmod := Nat.mod_two_eq_zero_or_one (inversions (perm.map swap01))
    refine ⟨perm.map swap01, ?_, fun h => by omega, fun h => by omega⟩
    unfold shuffleGrid
    rw [hsolv]
    show phaserSwap perm 0 1 = some (perm.map swap01)
    exact phaserSwap_eq_map perm hnd h0 h1

/-- Witness for C4's amended claim at N = 3 with the identity permutation of
the tile list (inversion count 0, already solvable). -/
theorem shuffleGrid_parity_rule_witness :
    ∃ out, shuffleGrid 3 (tileList 3) = some out ∧
      ((3 : Nat) % 2 = 1 → inversions out % 2 = 0) ∧
      ((3 : Nat) % 2 = 0 → inversions out % 2 = 1) :=
  shuffleGrid_parity_rule 3 (by decide) (tileList 3) (List.Perm.refl _)

/-- C5 amended: for every grid size N >= 3 and every post-shuffle
permutation, `shuffleGrid` returns a sequence of exactly N*N - 1 distinct
integers forming a permutation of `tileList N`, i.e. of the integers
{0,...,N*N-1} with exactly the blank's frame N - 1 removed.  (For N = 2 the
correction can throw; see the counterexample.) -/
theorem shuffleGrid_returns_tile_permutation (N : Nat) (hN : 3 ≤ N) (perm : List Nat)
    (hperm : List.Perm perm (tileList N)) :
    ∃ out, shuffleGrid N perm = some out ∧ List.Perm out (tileList N) ∧
      out.length = N * N - 1 ∧ out.Nodup := by
  have hnd : perm.Nodup := hperm.nodup_iff.mpr (tileList_nodup N)
  have hNN : N ≤ N * N := Nat.le_mul_of_pos_left N (by omega)
  have h0 : 0 ∈ perm := hperm.mem_iff.mpr (tileList_mem N 0 (by omega) (by omega))
  have h1 : 1 ∈ perm := hperm.mem_iff.mpr (tileList_mem N 1 (by omega) (by omega))
  cases hsolv : solvableB N perm with
  | true =>
    refine ⟨perm, ?_, hperm, ?_, hnd⟩
    · unfold shuffleGrid
      rw [hsolv]
      rfl
    · rw [hperm.length_eq, tileList_length N (by omega)]
  | false =>
    have hout : List.Perm (perm.map swap01) (tileList N) :=
      (map_swap01_perm perm hnd h0 h1).trans hperm
    refine ⟨perm.map swap01, ?_, hout, ?_, hout.nodup_iff.mpr (tileList_nodup N)⟩
    · unfold shuffleGrid
      rw [hsolv]
      show phaserSwap perm 0 1 = some (perm.map swap01)
      exact phaserSwap_eq_map perm hnd h0 h1
    · rw [hout.length_eq, tileList_length N (by omega)]

/-- Witness for C5's amended claim at N = 3 on a permutation that needs the
correction: `[1,0,3,4,5,6,7,8]` has one inversion (odd, N odd), so the
values 0 and 1 are swapped back and the solved list is returned. -/
theorem shuffleGrid_returns_tile_permutation_witness :
    ∃ out, shuffleGrid 3 [1, 0, 3, 4, 5, 6, 7, 8] = some out ∧
      List.Perm out (tileList 3) ∧ out.length = 3 * 3 - 1 ∧ out.Nodup :=
  shuffleGrid_returns_tile_permutation 3 (by decide) [1, 0, 3, 4, 5, 6, 7, 8] (by decide)

/-! ## C2 amended: characterizing the population order of create() -/

theorem reverse_eq_getLastD_cons {α : Type _} (fs : List α) (d : α) (h : fs ≠ []) :
    fs.reverse = fs.getLastD d :: fs.dropLast.reverse := by
  obtain ⟨l, b, rfl⟩ : ∃ l b, fs = l ++ [b] :=
    ⟨fs.dropLast, fs.getLast h, (List.dropLast_concat_getLast h).symm⟩
  rw [List.getLastD_concat, List.dropLast_concat, List.reverse_append]
  rfl

theorem countP_all_own {α : Type _} (l : List α) (p : α → Bool)
    (h : ∀ a ∈ l, p a = true) : l.countP p = l.length := by
  induction l with
  | nil => rfl
  | cons a t ih =>
    rw [List.countP_cons, h a (List.mem_cons_self a t),
      ih (fun b hb => h b (List.mem_cons_of_mem a hb))]
    simp

theorem sum_map_const_own {α : Type _} (l : List α) (g : α → Nat) (c : Nat)
    (h : ∀ x ∈ l, g x = c) : (l.map g).sum = c * l.length := by
  induction l with
  | nil => simp
  | cons a t ih =>
    rw [List.map_cons, List.sum_cons, h a (List.mem_cons_self a t),
      ih (fun b hb => h b (List.mem_cons_of_mem a hb)), List.length_cons, Nat.mul_succ]
    omega

theorem buildRowAux_fst_length (N i : Nat) (js : List Nat) : ∀ fs : List Nat,
    (buildRowAux N i js fs).1.length = js.length := by
  induction js with
  | nil => intro fs; rfl
  | cons j rest ih =>
    intro fs
    by_cases hcond : 0 < i ∨ j < N - 1
    · have heq : buildRowAux N i (j :: rest) fs =
          (some ⟨fs.getLastD 0, i, j⟩ :: (buildRowAux N i rest fs.dropLast).1,
            (buildRowAux N i rest fs.dropLast).2) := by
        show (if 0 < i ∨ j < N - 1 then
            (some ⟨fs.getLastD 0, i, j⟩ :: (buildRowAux N i rest fs.dropLast).1,
              (buildRowAux N i rest fs.dropLast).2)
          else (none :: (buildRowAux N i rest fs).1, (buildRowAux N i rest fs).2)) = _
        rw [if_pos hcond]
      rw [heq, List.length_cons, ih fs.dropLast, List.length_cons]
    · have heq : buildRowAux N i (j :: rest) fs =
          (none :: (buildRowAux N i rest fs).1, (buildRowAux N i rest fs).2) := by
        show (if 0 < i ∨ j < N - 1 then
            (some ⟨fs.getLastD 0, i, j⟩ :: (buildRowAux N i rest fs.dropLast).1,
              (buildRowAux N i rest fs.dropLast).2)
          else (none :: (buildRowAux N i rest fs).1, (buildRowAux N i rest fs).2)) = _
        rw [if_neg hcond]
      rw [heq, List.length_cons, ih fs, List.length_cons]

theorem buildRowAux_spec (N i : Nat) (js : List Nat) : ∀ fs : List Nat,
    js.countP (fun j => decide (0 < i ∨ j < N - 1)) ≤ fs.length →
    cellFrames (buildRowAux N i js fs).1 ++ ((buildRowAux N i js fs).2).reverse =
        fs.reverse ∧
    ((buildRowAux N i js fs).2).length =
      fs.length - js.countP (fun j => decide (0 < i ∨ j < N - 1)) := by
  induction js with
  | nil =>
    intro fs _
    exact ⟨rfl, rfl⟩
  | cons j rest ih =>
    intro fs hcount
    rw [List.countP_cons] at hcount
    by_cases hcond : 0 < i ∨ j < N - 1
    · have hdec : decide (0 < i ∨ j < N - 1) = true := decide_eq_true hcond
      rw [hdec] at hcount
      simp only [if_pos] at hcount
      have hcount' : rest.countP (fun j => decide (0 < i ∨ j < N - 1)) + 1 ≤ fs.length := by
        omega
      have hfs : fs ≠ [] := by
        intro h
        rw [h] at hcount'
        simp at hcount'
      have heq : buildRowAux N i (j :: rest) fs =
          (some ⟨fs.getLastD 0, i, j⟩ :: (buildRowAux N i rest fs.dropLast).1,
            (buildRowAux N i rest fs.dropLast).2) := by
        show (if 0 < i ∨ j < N - 1 then
            (some ⟨fs.getLastD 0, i, j⟩ :: (buildRowAux N i rest fs.dropLast).1,
              (buildRowAux N i rest fs.dropLast).2)
          else (none :: (buildRowAux N i rest fs).1, (buildRowAux N i rest fs).2)) = _
        rw [if_pos hcond]
      obtain ⟨ih1, ih2⟩ := ih fs.dropLast (by rw [List.length_dropLast]; omega)
      rw [heq]
      constructor
      · show fs.getLastD 0 ::
            (cellFrames (buildRowAux N i rest fs.dropLast).1 ++
              ((buildRowAux N i rest fs.dropLast).2).reverse) = fs.reverse
        rw [ih1, reverse_eq_getLastD_cons fs 0 hfs]
      · show (buildRowAux N i rest fs.dropLast).2.length = _
        rw [ih2, List.length_dropLast, List.countP_cons, hdec]
        simp only [if_pos]
        omega
    · have hdec : decide (0 < i ∨ j < N - 1) = false := by
        simp only [decide_eq_false_iff_not]
        exact hcond
      rw [hdec] at hcount
      simp only [Bool.false_eq_true, if_false, Nat.add_zero] at hcount
      have heq : buildRowAux N i (j :: rest) fs =
          (none :: (buildRowAux N i rest fs).1, (buildRowAux N i rest fs).2) := by
        show (if 0 < i ∨ j < N - 1 then
            (some ⟨fs.getLastD 0, i, j⟩ :: (buildRowAux N i rest fs.dropLast).1,
              (buildRowAux N i rest fs.dropLast).2)
          else (none :: (buildRowAux N i rest fs).1, (buildRowAux N i rest fs).2)) = _
        rw [if_neg hcond]
      obtain ⟨ih1, ih2⟩ := ih fs (by omega)
      rw [heq]
      constructor
      · show cellFrames (buildRowAux N i rest fs).1 ++
            ((buildRowAux N i rest fs).2).reverse = fs.reverse
        exact ih1
      · show (buildRowAux N i rest fs).2.length = _
        rw [ih2, List.countP_cons, hdec]
        simp only [Bool.false_eq_true, if_false, Nat.add_zero]

theorem nth_append_length {α : Type _} (A : List α) (x : α) (B : List α) :
    nth (A ++ x :: B) A.length = some x := by
  induction A with
  | nil => rfl
  | cons a t ih => exact ih

theorem buildRowAux_append (N i : Nat) (js1 js2 : List Nat) : ∀ fs : List Nat,
    buildRowAux N i (js1 ++ js2) fs =
      ((buildRowAux N i js1 fs).1 ++
          (buildRowAux N i js2 (buildRowAux N i js1 fs).2).1,
        (buildRowAux N i js2 (buildRowAux N i js1 fs).2).2) := by
  induction js1 with
  | nil => intro fs; rfl
  | cons j rest ih =>
    intro fs
    rw [List.cons_append]
    by_cases hcond : 0 < i ∨ j < N - 1
    · have heq1 : buildRowAux N i (j :: (rest ++ js2)) fs =
          (some ⟨fs.getLastD 0, i, j⟩ ::
              (buildRowAux N i (rest ++ js2) fs.dropLast).1,
            (buildRowAux N i (rest ++ js2) fs.dropLast).2) := by
        show (if 0 < i ∨ j < N - 1 then
            (some ⟨fs.getLastD 0, i, j⟩ ::
                (buildRowAux N i (rest ++ js2) fs.dropLast).1,
              (buildRowAux N i (rest ++ js2) fs.dropLast).2)
          else (none :: (buildRowAux N i (rest ++ js2) fs).1,
            (buildRowAux N i (rest ++ js2) fs).2)) = _
        rw [if_pos hcond]
      have heq2 : buildRowAux N i (j :: rest) fs =
          (some ⟨fs.getLastD 0, i, j⟩ :: (buildRowAux N i rest fs.dropLast).1,
            (buildRowAux N i rest fs.dropLast).2) := by
        show (if 0 < i ∨ j < N - 1 then
            (some ⟨fs.getLastD 0, i, j⟩ :: (buildRowAux N i rest fs.dropLast).1,
              (buildRowAux N i rest fs.dropLast).2)
          else (none :: (buildRowAux N i rest fs).1, (buildRowAux N i rest fs).2)) = _
        rw [if_pos hcond]
      rw [heq1, heq2, ih fs.dropLast]
      rfl
    · have heq1 : buildRowAux N i (j :: (rest ++ js2)) fs =
          (none :: (buildRowAux N i (rest ++ js2) fs).1,
            (buildRowAux N i (rest ++ js2) fs).2) := by
        show (if 0 < i ∨ j < N - 1 then
            (some ⟨fs.getLastD 0, i, j⟩ ::
                (buildRowAux N i (rest ++ js2) fs.dropLast).1,
              (buildRowAux N i (rest ++ js2) fs.dropLast).2)
          else (none :: (buildRowAux N i (rest ++ js2) fs).1,
            (buildRowAux N i (rest ++ js2) fs).2)) = _
        rw [if_neg hcond]
      have heq2 : buildRowAux N i (j :: rest) fs =
          (none :: (buildRowAux N i rest fs).1, (buildRowAux N i rest fs).2) := by
        show (if 0 < i ∨ j < N - 1 then
            (some ⟨fs.getLastD 0, i, j⟩ :: (buildRowAux N i rest fs.dropLast).1,
              (buildRowAux N i rest fs.dropLast).2)
          else (none :: (buildRowAux N i rest fs).1, (buildRowAux N i rest fs).2)) = _
        rw [if_neg hcond]
      rw [heq1, heq2, ih fs]
      rfl

theorem buildGridAux_spec (N : Nat) (is : List Nat) : ∀ fs : List Nat,
    (is.map fun i => (List.range N).countP
        (fun j => decide (0 < i ∨ j < N - 1))).sum ≤ fs.length →
    gridFrames (buildGridAux N is fs).1 ++ ((buildGridAux N is fs).2).reverse =
        fs.reverse ∧
    ((buildGridAux N is fs).2).length = fs.length -
      (is.map fun i => (List.range N).countP
        (fun j => decide (0 < i ∨ j < N - 1))).sum := by
  induction is with
  | nil =>
    intro fs _
    exact ⟨rfl, rfl⟩
  | cons i rest ih =>
    intro fs hsum
    rw [List.map_cons, List.sum_cons] at hsum
    have hrowcount : (List.range N).countP
        (fun j => decide (0 < i ∨ j < N - 1)) ≤ fs.length := by omega
    obtain ⟨hrow1, hrow2⟩ := buildRowAux_spec N i (List.range N) fs hrowcount
    obtain ⟨ih1, ih2⟩ := ih (buildRowAux N i (List.range N) fs).2 (by rw [hrow2]; omega)
    constructor
    · show (cellFrames (buildRowAux N i (List.range N) fs).1 ++
          gridFrames (buildGridAux N rest (buildRowAux N i (List.range N) fs).2).1) ++
          ((buildGridAux N rest (buildRowAux N i (List.range N) fs).2).2).reverse =
          fs.reverse
      rw [List.append_assoc, ih1, hrow1]
    · show (buildGridAux N rest (buildRowAux N i (List.range N) fs).2).2.length = _
      rw [ih2, hrow2, List.map_cons, List.sum_cons]
      omega

/-- C2 amended: `create()` fills the non-blank cells in row-major order but
consumes the shuffled sequence from its *end* (`tileFrames.pop()`), so the
row-major list of frames on the grid equals the reversed input sequence
(the k-th non-blank cell holds entry M - 1 - k of the M = N*N - 1 entries);
the one remaining cell, position (0, N-1), is left blank. -/
theorem createGrid_fills_reverse_order (N : Nat) (hN : 1 ≤ N) (fs : List Nat)
    (hlen : fs.length = N * N - 1) :
    gridFrames (createGrid N fs) = fs.reverse ∧
    getCell (createGrid N fs) 0 (N - 1) = none := by
  obtain ⟨M, rfl⟩ : ∃ M, N = M + 1 := ⟨N - 1, by omega⟩
  have hcount0 : (List.range (M + 1)).countP
      (fun j => decide (0 < 0 ∨ j < (M + 1) - 1)) = M := by
    rw [countP_congr_own _ _ (fun j => decide (j < M))
      (fun a _ => decide_eq_decide.mpr (by omega))]
    rw [List.range_succ, List.countP_append]
    rw [countP_all_own _ _ (fun a ha => decide_eq_true (List.mem_range.mp ha))]
    rw [List.length_range]
    have hone : List.countP (fun j => decide (j < M)) [M] = 0 := by
      rw [List.countP_cons, List.countP_nil]
      simp
    omega
  have hcountpos : ∀ i : Nat, 0 < i → (List.range (M + 1)).countP
      (fun j => decide (0 < i ∨ j < (M + 1) - 1)) = M + 1 := by
    intro i hi
    rw [countP_all_own _ _ (fun a _ => decide_eq_true (Or.inl hi)), List.length_range]
  have hsum : ((List.range (M + 1)).map fun i => (List.range (M + 1)).countP
      (fun j => decide (0 < i ∨ j < (M + 1) - 1))).sum = (M + 1) * (M + 1) - 1 := by
    have key : ∀ F : Nat → Nat, F 0 = M → (∀ i, 0 < i → F i = M + 1) →
        ((List.range (M + 1)).map F).sum = (M + 1) * (M + 1) - 1 := by
      intro F h0 hp
      rw [List.range_succ_eq_map, List.map_cons, List.sum_cons, h0, List.map_map]
      rw [sum_map_const_own (List.range M) (F ∘ Nat.succ) (M + 1)
        (fun x _ => hp (x + 1) (by omega))]
      rw [List.length_range, Nat.mul_succ]
      omega
    exact key _ hcount0 hcountpos
  have hsumle : ((List.range (M + 1)).map fun i => (List.range (M + 1)).countP
      (fun j => decide (0 < i ∨ j < (M + 1) - 1))).sum ≤ fs.length := by
    rw [hsum, hlen]
  obtain ⟨hcat, hlenleft⟩ := buildGridAux_spec (M + 1) (List.range (M + 1)) fs hsumle
  have hleftnil : (buildGridAux (M + 1) (List.range (M + 1)) fs).2 = [] := by
    have hz : ((buildGridAux (M + 1) (List.range (M + 1)) fs).2).length = 0 := by
      rw [hlenleft, hsum, hlen]
      omega
    exact List.eq_nil_of_length_eq_zero hz
  constructor
  · show gridFrames (buildGridAux (M + 1) (List.range (M + 1)) fs).1 = fs.reverse
    rw [hleftnil] at hcat
    simpa using hcat
  · have hgrid : createGrid (M + 1) fs =
        (buildRowAux (M + 1) 0 (List.range (M + 1)) fs).1 ::
          (buildGridAux (M + 1) ((List.range M).map Nat.succ)
            (buildRowAux (M + 1) 0 (List.range (M + 1)) fs).2).1 := by
      show (buildGridAux (M + 1) (List.range (M + 1)) fs).1 = _
      conv_lhs => rw [List.range_succ_eq_map]
      rfl
    have hblank : buildRowAux (M + 1) 0 [M]
        (buildRowAux (M + 1) 0 (List.range M) fs).2 =
        ([none], (buildRowAux (M + 1) 0 (List.range M) fs).2) := by
      show (if 0 < 0 ∨ M < (M + 1) - 1 then
          (some ⟨((buildRowAux (M + 1) 0 (List.range M) fs).2).getLastD 0, 0, M⟩ ::
              (buildRowAux (M + 1) 0 []
                ((buildRowAux (M + 1) 0 (List.range M) fs).2).dropLast).1,
            (buildRowAux (M + 1) 0 []
              ((buildRowAux (M + 1) 0 (List.range M) fs).2).dropLast).2)
        else (none :: (buildRowAux (M + 1) 0 []
            (buildRowAux (M + 1) 0 (List.range M) fs).2).1,
          (buildRowAux (M + 1) 0 []
            (buildRowAux (M + 1) 0 (List.range M) fs).2).2)) = _
      rw [if_neg (by omega)]
      rfl
    have hrow0 : (buildRowAux (M + 1) 0 (List.range (M + 1)) fs).1 =
        (buildRowAux (M + 1) 0 (List.range M) fs).1 ++ [none] := by
      rw [List.range_succ, buildRowAux_append, hblank]
    have hAlen : (buildRowAux (M + 1) 0 (List.range M) fs).1.length = M := by
      rw [buildRowAux_fst_length, List.length_range]
    have hnth : nth ((buildRowAux (M + 1) 0 (List.range M) fs).1 ++ [none]) M =
        some none := by
      have h := nth_append_length (buildRowAux (M + 1) 0 (List.range M) fs).1
        (none : Option Tile) []
      rw [hAlen] at h
      exact h
    show (nth ((nth (createGrid (M + 1) fs) 0).getD []) ((M + 1) - 1)).getD none = none
    rw [hgrid]
    show (nth ((buildRowAux (M + 1) 0 (List.range (M + 1)) fs).1) M).getD none = none
    rw [hrow0, hnth]
    rfl

/-- Witness for C2's amended claim: at size 3 with the sequence
`[0,1,2,3,4,5,6,7]`, the grid's row-major frames are the reversed sequence
and cell (0,2) is blank. -/
theorem createGrid_fills_reverse_order_witness :
    gridFrames (createGrid 3 [0, 1, 2, 3, 4, 5, 6, 7]) =
        [0, 1, 2, 3, 4, 5, 6, 7].reverse ∧
    getCell (createGrid 3 [0, 1, 2, 3, 4, 5, 6, 7]) 0 (3 - 1) = none :=
  createGrid_fills_reverse_order 3 (by decide) [0, 1, 2, 3, 4, 5, 6, 7] (by decide)
